import Mathlib

/-!
Verification development for the climgr process-lifecycle and
shortcut-synchronization core: src-tauri/src models.rs, store.rs and lib.rs.

The Rust code is shallowly embedded: pure functions become Lean
functions; the OS facilities (filesystem, process spawning, the global
shortcut registrar, the HOME variable) are an explicit environment
record of call outcomes; the in-memory Process Registry
(HashMap<String, u32>) is an association list threaded through the
operations.  `Except String` mirrors the Rust type `Result<_, String>`.
-/

set_option maxRecDepth 4096

set_option linter.unusedVariables false

instance {ε α : Type} [DecidableEq ε] [DecidableEq α] : DecidableEq (Except ε α)
  | .ok a, .ok b =>
    if h : a = b then .isTrue (congrArg Except.ok h)
    else .isFalse (fun hc => h (Except.ok.inj hc))
  | .ok _, .error _ => .isFalse (fun hc => Except.noConfusion hc)
  | .error _, .ok _ => .isFalse (fun hc => Except.noConfusion hc)
  | .error e, .error f =>
    if h : e = f then .isTrue (congrArg Except.error h)
    else .isFalse (fun hc => h (Except.error.inj hc))

namespace Climgr

/-- models.rs: `struct Command`. -/
structure Command where
  id : String
  name : String
  script : String
  kill_script : Option String
  shortcut : Option String
  description : Option String
deriving DecidableEq, Repr

/-- models.rs: `struct Config`. -/
structure Config where
  safe_mode : Bool
  commands_path : Option String
  accessibility_notice_dismissed : Option Bool
deriving DecidableEq, Repr

/-! ### A model of the serde_json subset the store uses

store.rs parses `commands.json` (a JSON array of Command objects) and
`config.json` (a Config object) with `serde_json::from_reader`.  We
model the JSON reader concretely: a small JSON value parser plus the
serde-derived decoding rules (required fields error when missing,
`Option` fields default to `None` when missing or `null`, unknown
fields are ignored).  Exact error strings of serde_json are not
reproduced; only ok-versus-error structure is relied on. -/

inductive JValue where
  | jnull
  | jbool (b : Bool)
  | jnum (raw : String)
  | jstr (s : String)
  | jarr (elems : List JValue)
  | jobj (fields : List (String × JValue))
deriving Repr

def isJsonWs (c : Char) : Bool :=
  c == ' ' || c == '\r' || c == '\n' || c == '\t'

def skipWs (cs : List Char) : List Char :=
  match cs with
  | [] => []
  | c :: rest => if isJsonWs c then skipWs rest else cs

def hexVal (c : Char) : Option Nat :=
  let n := c.toNat
  if 48 ≤ n && n ≤ 57 then some (n - 48)
  else if 97 ≤ n && n ≤ 102 then some (n - 87)
  else if 65 ≤ n && n ≤ 70 then some (n - 55)
  else none

def lbraceChar : Char := Char.ofNat 123

def rbraceChar : Char := Char.ofNat 125

def isNumChar (c : Char) : Bool :=
  ('0' ≤ c && c ≤ '9') || c == '-' || c == '+' || c == '.' || c == 'e' || c == 'E'

def takeNum : List Char → List Char × List Char
  | [] => ([], [])
  | c :: cs =>
    if isNumChar c then
      let (n, rest) := takeNum cs
      (c :: n, rest)
    else ([], c :: cs)

/-- Parse the body of a JSON string literal (after the opening quote),
accumulating decoded characters in reverse. -/
def pStr (fuel : Nat) (cs : List Char) (acc : List Char) :
    Except String (String × List Char) :=
  match fuel with
  | 0 => .error "EOF while parsing a string"
  | fuel + 1 =>
    match cs with
    | [] => .error "EOF while parsing a string"
    | '"' :: rest => .ok (String.mk acc.reverse, rest)
    | '\\' :: rest =>
      match rest with
      | [] => .error "EOF while parsing a string"
      | e :: rest2 =>
        if e == '"' then pStr fuel rest2 ('"' :: acc)
        else if e == '\\' then pStr fuel rest2 ('\\' :: acc)
        else if e == '/' then pStr fuel rest2 ('/' :: acc)
        else if e == 'b' then pStr fuel rest2 (Char.ofNat 8 :: acc)
        else if e == 'f' then pStr fuel rest2 (Char.ofNat 12 :: acc)
        else if e == 'n' then pStr fuel rest2 ('\n' :: acc)
        else if e == 'r' then pStr fuel rest2 ('\r' :: acc)
        else if e == 't' then pStr fuel rest2 ('\t' :: acc)
        else if e == 'u' then
          match rest2 with
          | d1 :: d2 :: d3 :: d4 :: rest3 =>
            match hexVal d1, hexVal d2, hexVal d3, hexVal d4 with
            | some v1, some v2, some v3, some v4 =>
              pStr fuel rest3 (Char.ofNat (v1 * 4096 + v2 * 256 + v3 * 16 + v4) :: acc)
            | _, _, _, _ => .error "invalid escape"
          | _ => .error "EOF while parsing a string"
        else .error "invalid escape"
    | c :: rest => pStr fuel rest (c :: acc)

mutual

/-- Parse one JSON value from the head of `cs` (no leading whitespace). -/
def pVal (fuel : Nat) (cs : List Char) : Except String (JValue × List Char) :=
  match fuel with
  | 0 => .error "EOF while parsing a value"
  | fuel + 1 =>
    match cs with
    | [] => .error "EOF while parsing a value"
    | 'n' :: 'u' :: 'l' :: 'l' :: rest => .ok (.jnull, rest)
    | 't' :: 'r' :: 'u' :: 'e' :: rest => .ok (.jbool true, rest)
    | 'f' :: 'a' :: 'l' :: 's' :: 'e' :: rest => .ok (.jbool false, rest)
    | '"' :: rest =>
      match pStr fuel rest [] with
      | .error e => .error e
      | .ok (s, rest2) => .ok (.jstr s, rest2)
    | '[' :: rest =>
      let rest2 := skipWs rest
      match rest2 with
      | ']' :: rest3 => .ok (.jarr [], rest3)
      | _ => pArr fuel rest2 []
    | c :: rest =>
      if c == lbraceChar then
        let rest2 := skipWs rest
        match rest2 with
        | c2 :: rest3 =>
          if c2 == rbraceChar then .ok (.jobj [], rest3)
          else pObj fuel rest2 []
        | [] => .error "EOF while parsing an object"
      else if c == '-' || ('0' ≤ c && c ≤ '9') then
        let (n, rest2) := takeNum (c :: rest)
        .ok (.jnum (String.mk n), rest2)
      else .error "expected value"

/-- Parse the elements of a non-empty JSON array, starting at an element. -/
def pArr (fuel : Nat) (cs : List Char) (acc : List JValue) :
    Except String (JValue × List Char) :=
  match fuel with
  | 0 => .error "EOF while parsing a list"
  | fuel + 1 =>
    match pVal fuel cs with
    | .error e => .error e
    | .ok (v, rest) =>
      match skipWs rest with
      | ']' :: rest2 => .ok (.jarr (acc ++ [v]), rest2)
      | ',' :: rest2 => pArr fuel (skipWs rest2) (acc ++ [v])
      | _ => .error "expected comma or end of list"

/-- Parse the members of a non-empty JSON object, starting at a key. -/
def pObj (fuel : Nat) (cs : List Char) (acc : List (String × JValue)) :
    Except String (JValue × List Char) :=
  match fuel with
  | 0 => .error "EOF while parsing an object"
  | fuel + 1 =>
    match cs with
    | '"' :: rest =>
      match pStr fuel rest [] with
      | .error e => .error e
      | .ok (k, rest2) =>
        match skipWs rest2 with
        | ':' :: rest3 =>
          match pVal fuel (skipWs rest3) with
          | .error e => .error e
          | .ok (v, rest4) =>
            match skipWs rest4 with
            | c5 :: rest5 =>
              if c5 == rbraceChar then .ok (.jobj (acc ++ [(k, v)]), rest5)
              else if c5 == ',' then pObj fuel (skipWs rest5) (acc ++ [(k, v)])
              else .error "expected comma or end of object"
            | [] => .error "EOF while parsing an object"
        | _ => .error "expected colon"
    | _ => .error "key must be a string"

end

/-- Entry point of the JSON value parser, mirroring
the requirement of `serde_json::from_reader` that exactly one value is present. -/
def parseJson (s : String) : Except String JValue :=
  let cs := skipWs s.data
  match pVal (4 * s.length + 8) cs with
  | .error e => .error e
  | .ok (v, rest) =>
    if (skipWs rest).isEmpty then .ok v
    else .error "trailing characters"

def jLookup (fields : List (String × JValue)) (k : String) : Option JValue :=
  (fields.find? (fun f => f.1 == k)).map (·.2)

/-- serde: required `String` field. -/
def reqStringField (fields : List (String × JValue)) (k : String) :
    Except String String :=
  match jLookup fields k with
  | some (.jstr s) => .ok s
  | some _ => .error ("invalid type for field " ++ k)
  | none => .error ("missing field " ++ k)

/-- serde: `Option<String>` field (missing or null is None). -/
def optStringField (fields : List (String × JValue)) (k : String) :
    Except String (Option String) :=
  match jLookup fields k with
  | none => .ok none
  | some .jnull => .ok none
  | some (.jstr s) => .ok (some s)
  | some _ => .error ("invalid type for field " ++ k)

/-- serde: required `bool` field. -/
def reqBoolField (fields : List (String × JValue)) (k : String) :
    Except String Bool :=
  match jLookup fields k with
  | some (.jbool b) => .ok b
  | some _ => .error ("invalid type for field " ++ k)
  | none => .error ("missing field " ++ k)

/-- serde: `Option<bool>` field (missing or null is None). -/
def optBoolField (fields : List (String × JValue)) (k : String) :
    Except String (Option Bool) :=
  match jLookup fields k with
  | none => .ok none
  | some .jnull => .ok none
  | some (.jbool b) => .ok (some b)
  | some _ => .error ("invalid type for field " ++ k)

/-- serde-derived `Deserialize` for `Command`. -/
def decodeCommand : JValue → Except String Command
  | .jobj fields =>
    match reqStringField fields "id" with
    | .error e => .error e
    | .ok id =>
    match reqStringField fields "name" with
    | .error e => .error e
    | .ok name =>
    match reqStringField fields "script" with
    | .error e => .error e
    | .ok script =>
    match optStringField fields "kill_script" with
    | .error e => .error e
    | .ok ks =>
    match optStringField fields "shortcut" with
    | .error e => .error e
    | .ok sc =>
    match optStringField fields "description" with
    | .error e => .error e
    | .ok d => .ok ⟨id, name, script, ks, sc, d⟩
  | _ => .error "invalid type: expected a Command object"

def decodeCommandList (vs : List JValue) : Except String (List Command) :=
  match vs with
  | [] => .ok []
  | v :: rest =>
    match decodeCommand v with
    | .error e => .error e
    | .ok c =>
      match decodeCommandList rest with
      | .error e => .error e
      | .ok cs => .ok (c :: cs)

/-- serde-derived `Deserialize` for `Vec<Command>`. -/
def decodeCommands : JValue → Except String (List Command)
  | .jarr vs => decodeCommandList vs
  | _ => .error "invalid type: expected a sequence"

/-- serde-derived `Deserialize` for `Config`. -/
def decodeConfig : JValue → Except String Config
  | .jobj fields =>
    match reqBoolField fields "safe_mode" with
    | .error e => .error e
    | .ok sm =>
    match optStringField fields "commands_path" with
    | .error e => .error e
    | .ok cp =>
    match optBoolField fields "accessibility_notice_dismissed" with
    | .error e => .error e
    | .ok ad => .ok ⟨sm, cp, ad⟩
  | _ => .error "invalid type: expected a Config object"

/-! ### Rust `str` primitives used by the source

`starts_with('~')`, `strip_prefix('~')`, `trim` and `is_empty` are
modelled on the character list of the string (the Rust `trim` removes
Unicode whitespace; the ASCII whitespace subset suffices here). -/

def startsWithTilde (s : String) : Bool :=
  match s.data with
  | [] => false
  | c :: _ => c == '~'

/-- Rust `str::strip_prefix('~')`. -/
def stripTilde (s : String) : Option String :=
  match s.data with
  | c :: rest => if c == '~' then some (String.mk rest) else none
  | [] => none

def isWsChar (c : Char) : Bool :=
  c == ' ' || c == '\r' || c == '\n' || c == '\t'

def dropLeadingWs : List Char → List Char
  | [] => []
  | c :: cs => if isWsChar c then dropLeadingWs cs else c :: cs

/-- Rust `str::trim`. -/
def rustTrim (s : String) : String :=
  String.mk ((dropLeadingWs (dropLeadingWs s.data).reverse).reverse)

/-- Rust `str::trim().is_empty()`, the emptiness test the source
applies to shortcuts and kill scripts. -/
def trimIsEmpty (s : String) : Bool :=
  (rustTrim s).data.isEmpty

/-! ### store.rs

The filesystem is a map from path strings to file contents; `none`
means the file does not exist (`path.exists()` is false). -/

abbrev Fs := String → Option String

namespace Store

/-- store.rs `expand_path`: `~` at the start is replaced by the HOME
variable (`home = none` models an unset HOME). -/
def expand_path (home : Option String) (path_str : String) : String :=
  if startsWithTilde path_str then
    match home with
    | some h =>
      match stripTilde path_str with
      | some stripped => h ++ stripped
      | none => path_str
    | none => path_str
  else path_str

/-- store.rs `get_commands`: empty list when the file is absent,
otherwise a serde_json parse of the contents. -/
def get_commands (fs : Fs) (path : String) : Except String (List Command) :=
  match fs path with
  | none => .ok []
  | some contents =>
    match parseJson contents with
    | .error e => .error e
    | .ok v => decodeCommands v

/-- store.rs `get_config`: default config when the file is absent,
otherwise a serde_json parse of the contents. -/
def get_config (fs : Fs) (path : String) : Except String Config :=
  match fs path with
  | none => .ok ⟨false, none, none⟩
  | some contents =>
    match parseJson contents with
    | .error e => .error e
    | .ok v => decodeConfig v

end Store

/-! ### lib.rs

The OS facilities lib.rs touches are collected into an environment of
call outcomes: the app-data directory lookup, the HOME variable, the
filesystem, and the result of each external process / registrar call.
The Process Registry (`ProcessManager.processes`) is an association
list from command id to pid, threaded explicitly. -/

/-- Outcome of a finished external process, as seen through the Rust
`Output` (exit status plus captured streams); `status = 0` is
`ExitStatus::success()`. -/
structure ExitOutput where
  status : Int
  stdout : String
  stderr : String
deriving DecidableEq, Repr

/-- Environment of OS-call outcomes for one operation. -/
structure Env where
  appDataDir : Except String String
  home : Option String
  fs : Fs
  spawnOutcome : Except String Nat
  waitOutcome : Except String ExitOutput
  killScriptOutcome : Except String ExitOutput
  killCmdOutcome : Except String ExitOutput
  unregisterAllOutcome : Except String Unit
  registerOk : String → Bool
  saveOutcome : Except String Unit

/-- The Process Registry: `HashMap<String, u32>`. -/
abbrev Registry := List (String × Nat)

def regInsert (r : Registry) (k : String) (v : Nat) : Registry :=
  (k, v) :: r.filter (fun p => !(p.1 == k))

def regRemove (r : Registry) (k : String) : Registry :=
  r.filter (fun p => !(p.1 == k))

def regFind (r : Registry) (k : String) : Option Nat :=
  (r.find? (fun p => p.1 == k)).map (·.2)

/-- lib.rs `get_config_path`. -/
def get_config_path (env : Env) : Except String String :=
  match env.appDataDir with
  | .ok d => .ok (d ++ "/config.json")
  | .error e => .error ("Failed to get app data dir: " ++ e)

/-- lib.rs `get_store_path`: a custom `commands_path` from a readable
config wins (tilde-expanded); otherwise the app-data default. -/
def get_store_path (env : Env) : Except String String :=
  let fallback : Except String String :=
    match env.appDataDir with
    | .ok d => .ok (d ++ "/commands.json")
    | .error e => .error ("Failed to get app data dir: " ++ e)
  match get_config_path env with
  | .error _ => fallback
  | .ok configPath =>
    match Store.get_config env.fs configPath with
    | .error _ => fallback
    | .ok config =>
      match config.commands_path with
      | some pathStr => .ok (Store.expand_path env.home pathStr)
      | none => fallback

def safeModeMsg : String :=
  "Command execution disabled in safe mode. Disable safe mode in settings to execute commands."

/-- Result of `run_command_script` / `execute_command`: the returned
value, the Process Registry afterwards, and the pids actually
spawned. -/
structure RunOutcome where
  result : Except String String
  registry : Registry
  spawned : List Nat
deriving Repr

/-- lib.rs `run_command_script`: safe-mode gate, spawn, registry
insert, wait, registry remove, combined output. -/
def run_command_script (env : Env) (command_id : String) (script : String)
    (reg : Registry) : RunOutcome :=
  match get_config_path env with
  | .error e => ⟨.error e, reg, []⟩
  | .ok configPath =>
  match Store.get_config env.fs configPath with
  | .error e => ⟨.error e, reg, []⟩
  | .ok config =>
  if config.safe_mode then ⟨.error safeModeMsg, reg, []⟩
  else
    match env.spawnOutcome with
    | .error e => ⟨.error ("Failed to spawn command: " ++ e), reg, []⟩
    | .ok pid =>
      let reg1 := regInsert reg command_id pid
      let reg2 := regRemove reg1 command_id
      match env.waitOutcome with
      | .error e => ⟨.error ("Failed to wait for command: " ++ e), reg2, [pid]⟩
      | .ok out => ⟨.ok (out.stdout ++ out.stderr), reg2, [pid]⟩

/-- lib.rs `execute_command`: fresh store read, id lookup, then
`run_command_script` on a worker via `spawn_blocking` (the join of the
worker task is modelled as always completing, so the
`Failed to execute command task` wrapper never fires). -/
def execute_command (env : Env) (reg : Registry) (command_id : String) :
    RunOutcome :=
  match get_store_path env with
  | .error e => ⟨.error e, reg, []⟩
  | .ok path =>
  match Store.get_commands env.fs path with
  | .error e => ⟨.error e, reg, []⟩
  | .ok commands =>
  match commands.find? (fun c => c.id == command_id) with
  | none => ⟨.error "Command not found", reg, []⟩
  | some command => run_command_script env command_id command.script reg

/-- The kill script lib.rs `kill_command` selects: present and not
whitespace-only, from the command that matches the id. -/
def killScriptOf (commands : List Command) (command_id : String) :
    Option String :=
  match commands.find? (fun c => c.id == command_id) with
  | some command =>
    match command.kill_script with
    | some ks => if trimIsEmpty ks then none else some ks
    | none => none
  | none => none

/-- Result of `kill_command`: the returned value, the registry
afterwards, whether the Process Registry was read, the kill scripts
run, and the pids the fallback invoked `kill -9` on. -/
structure KillOutcome where
  result : Except String Unit
  registry : Registry
  consultedRegistry : Bool
  ranKillScripts : List String
  signaledPids : List Nat
deriving Repr

/-- lib.rs `kill_command` (cfg(unix) branch): custom kill script if
declared and non-blank, else `kill -9` on the tracked pid. -/
def kill_command (env : Env) (reg : Registry) (command_id : String) :
    KillOutcome :=
  match get_store_path env with
  | .error e => ⟨.error e, reg, false, [], []⟩
  | .ok path =>
  match Store.get_commands env.fs path with
  | .error e => ⟨.error e, reg, false, [], []⟩
  | .ok commands =>
  match killScriptOf commands command_id with
  | some ks =>
    match env.killScriptOutcome with
    | .error e => ⟨.error ("Failed to execute kill script: " ++ e), reg, false, [], []⟩
    | .ok _out => ⟨.ok (), reg, false, [ks], []⟩
  | none =>
    match regFind reg command_id with
    | none => ⟨.ok (), reg, true, [], []⟩
    | some pid =>
      match env.killCmdOutcome with
      | .error e => ⟨.error ("Failed to execute kill command: " ++ e), reg, true, [], []⟩
      | .ok out =>
        if out.status == 0 then ⟨.ok (), reg, true, [], [pid]⟩
        else ⟨.error ("Kill command failed: " ++ out.stderr), reg, true, [], [pid]⟩

/-- One iteration of the registration loop in lib.rs
`refresh_shortcuts`: a non-blank shortcut the registrar accepts joins
the registration set; a registration failure is logged and skipped. -/
def shortcutStep (accepts : String → Bool) (acc : List String) (c : Command) :
    List String :=
  match c.shortcut with
  | some s => if !trimIsEmpty s && accepts s then acc ++ [s] else acc
  | none => acc

/-- lib.rs `refresh_shortcuts`: unregister everything, re-read the
store (read errors mean an empty set), register each non-blank
shortcut best-effort.  Returns the operation result and the OS
registration set afterwards. -/
def refresh_shortcuts (env : Env) (osShortcuts : List String) :
    Except String Unit × List String :=
  match env.unregisterAllOutcome with
  | .error e => (.error e, osShortcuts)
  | .ok _ =>
    match get_store_path env with
    | .error e => (.error e, [])
    | .ok path =>
      match Store.get_commands env.fs path with
      | .error _ => (.ok (), [])
      | .ok commands =>
        (.ok (), commands.foldl (shortcutStep env.registerOk) [])

/-! ### save_commands and the mutating operations

`store::save_commands` serializes the whole list as JSON and overwrites
the file (the whitespace of serde_json pretty-printing is not reproduced;
the parser above ignores whitespace, so the content is equivalent).
Its filesystem effect is modelled as a point update; `saveOutcome`
models the directory-creation / file-write IO outcome. -/

def escChar (c : Char) : List Char :=
  if c == '"' then ['\\', '"']
  else if c == '\\' then ['\\', '\\']
  else if c == '\n' then ['\\', 'n']
  else if c == '\t' then ['\\', 't']
  else if c == '\r' then ['\\', 'r']
  else [c]

def jsonOfString (s : String) : String :=
  "\"" ++ String.mk (s.data.map escChar).flatten ++ "\""

def jsonOfOptString : Option String → String
  | none => "null"
  | some s => jsonOfString s

def jsonOfCommand (c : Command) : String :=
  "\x7b\"id\":" ++ jsonOfString c.id ++
  ",\"name\":" ++ jsonOfString c.name ++
  ",\"script\":" ++ jsonOfString c.script ++
  ",\"kill_script\":" ++ jsonOfOptString c.kill_script ++
  ",\"shortcut\":" ++ jsonOfOptString c.shortcut ++
  ",\"description\":" ++ jsonOfOptString c.description ++ "\x7d"

def jsonOfCommands (cs : List Command) : String :=
  "[" ++ String.intercalate "," (cs.map jsonOfCommand) ++ "]"

/-- store.rs `save_commands`, as a filesystem transformer: on IO
success the file at `path` now holds the serialized list. -/
def fsAfterSave (env : Env) (path : String) (cs : List Command) : Fs :=
  fun p => if p == path then some (jsonOfCommands cs) else env.fs p

def envAfterSave (env : Env) (path : String) (cs : List Command) : Env :=
  { env with fs := fsAfterSave env path cs }

/-- Events a mutating operation performs, in order. -/
inductive StoreEvent where
  | saved (commands : List Command)
  | refreshAttempted
deriving DecidableEq, Repr

/-- Result of add/update/delete: the returned value, the events in
order, and the OS shortcut registration set afterwards. -/
structure MutOutcome where
  result : Except String Unit
  events : List StoreEvent
  osShortcuts : List String
deriving DecidableEq, Repr

/-- lib.rs `get_commands` (the `list_commands` operation). -/
def list_commands (env : Env) : Except String (List Command) :=
  match get_store_path env with
  | .error e => .error e
  | .ok path => Store.get_commands env.fs path

/-- lib.rs `add_command`: read, append, save, refresh. -/
def add_command (env : Env) (osShortcuts : List String) (command : Command) :
    MutOutcome :=
  match get_store_path env with
  | .error e => ⟨.error e, [], osShortcuts⟩
  | .ok path =>
  match Store.get_commands env.fs path with
  | .error e => ⟨.error e, [], osShortcuts⟩
  | .ok commands =>
  let newCommands := commands ++ [command]
  match env.saveOutcome with
  | .error e => ⟨.error e, [], osShortcuts⟩
  | .ok _ =>
    let env2 := envAfterSave env path newCommands
    let (r, s) := refresh_shortcuts env2 osShortcuts
    ⟨r, [.saved newCommands, .refreshAttempted], s⟩

/-- lib.rs `update_command`: read, replace the entry whose id matches,
save, refresh; `Command not found` when no entry matches. -/
def update_command (env : Env) (osShortcuts : List String) (command : Command) :
    MutOutcome :=
  match get_store_path env with
  | .error e => ⟨.error e, [], osShortcuts⟩
  | .ok path =>
  match Store.get_commands env.fs path with
  | .error e => ⟨.error e, [], osShortcuts⟩
  | .ok commands =>
  match commands.findIdx? (fun c => c.id == command.id) with
  | some index =>
    let newCommands := commands.set index command
    match env.saveOutcome with
    | .error e => ⟨.error e, [], osShortcuts⟩
    | .ok _ =>
      let env2 := envAfterSave env path newCommands
      let (r, s) := refresh_shortcuts env2 osShortcuts
      ⟨r, [.saved newCommands, .refreshAttempted], s⟩
  | none => ⟨.error "Command not found", [], osShortcuts⟩

/-- lib.rs `delete_command`: read, retain the other ids, save,
refresh (succeeds even when the id matches nothing). -/
def delete_command (env : Env) (osShortcuts : List String) (id : String) :
    MutOutcome :=
  match get_store_path env with
  | .error e => ⟨.error e, [], osShortcuts⟩
  | .ok path =>
  match Store.get_commands env.fs path with
  | .error e => ⟨.error e, [], osShortcuts⟩
  | .ok commands =>
  let newCommands := commands.filter (fun c => !(c.id == id))
  match env.saveOutcome with
  | .error e => ⟨.error e, [], osShortcuts⟩
  | .ok _ =>
    let env2 := envAfterSave env path newCommands
    let (r, s) := refresh_shortcuts env2 osShortcuts
    ⟨r, [.saved newCommands, .refreshAttempted], s⟩

/-! ### Concrete environments used to instantiate the theorems -/

/-- An environment where every OS call succeeds, no file exists, and
the registrar accepts every spec. -/
def baseEnv : Env where
  appDataDir := .ok "/data"
  home := some "/home/u"
  fs := fun _ => none
  spawnOutcome := .ok 101
  waitOutcome := .ok ⟨0, "out", "err"⟩
  killScriptOutcome := .ok ⟨0, "", ""⟩
  killCmdOutcome := .ok ⟨0, "", ""⟩
  unregisterAllOutcome := .ok ()
  registerOk := fun _ => true
  saveOutcome := .ok ()

def cmdEcho : Command := ⟨"a", "Echo", "echo hi", none, none, none⟩

def cmdEcho2 : Command := ⟨"a", "Echo2", "echo bye", none, none, none⟩

def cmdKillable : Command := ⟨"c", "Daemon", "run", some "true", none, none⟩

def cmdCtrl1 : Command := ⟨"s1", "One", "echo 1", none, some "Ctrl+1", none⟩

def cmdCtrl2 : Command := ⟨"s2", "Two", "echo 2", none, some "Ctrl+2", none⟩

def cmdBlankShortcut : Command := ⟨"s3", "Blank", "echo 3", none, some " ", none⟩

def fsWith (contents : String) : Fs :=
  fun p => if p == "/data/commands.json" then some contents else none

def commandsJsonEcho : String :=
  "[\x7b\"id\":\"a\",\"name\":\"Echo\",\"script\":\"echo hi\"\x7d]"

def commandsJsonKillable : String :=
  "[\x7b\"id\":\"c\",\"name\":\"Daemon\",\"script\":\"run\",\"kill_script\":\"true\"\x7d]"

def commandsJsonShortcuts : String :=
  "[\x7b\"id\":\"s1\",\"name\":\"One\",\"script\":\"echo 1\",\"shortcut\":\"Ctrl+1\"\x7d," ++
  "\x7b\"id\":\"s2\",\"name\":\"Two\",\"script\":\"echo 2\",\"shortcut\":\"Ctrl+2\"\x7d]"

def commandsJsonBlankShortcut : String :=
  "[\x7b\"id\":\"s3\",\"name\":\"Blank\",\"script\":\"echo 3\",\"shortcut\":\" \"\x7d]"

def configJsonSafe : String := "\x7b\"safe_mode\": true\x7d"

/-- Safe mode on, one stored command. -/
def envSafe : Env :=
  { baseEnv with fs := fun p =>
      if p == "/data/config.json" then some configJsonSafe
      else if p == "/data/commands.json" then some commandsJsonEcho
      else none }

/-- One stored command, safe mode off (no config file), subprocess
exits non-zero. -/
def envRun : Env :=
  { baseEnv with
      fs := fsWith commandsJsonEcho
      waitOutcome := .ok ⟨2, "partial out", "boom"⟩ }

/-- One stored command with a kill script; the kill script exits
non-zero. -/
def envKillScript : Env :=
  { baseEnv with
      fs := fsWith commandsJsonKillable
      killScriptOutcome := .ok ⟨3, "", "script failed"⟩ }

/-- No kill script anywhere; the `kill -9` fallback invocation runs
but reports failure (the tracked process is already gone). -/
def envKillGone : Env :=
  { baseEnv with killCmdOutcome := .ok ⟨1, "", "kill: No such process"⟩ }

/-- No kill script anywhere; the `kill -9` fallback succeeds. -/
def envKillOk : Env := baseEnv

/-- Two commands with shortcuts; the registrar accepts only
`Ctrl+1`. -/
def envShortcuts : Env :=
  { baseEnv with
      fs := fsWith commandsJsonShortcuts
      registerOk := fun s => s == "Ctrl+1" }

/-- One command whose shortcut is a single space, accepted by the
registrar if it were ever attempted. -/
def envBlankShortcut : Env :=
  { baseEnv with fs := fsWith commandsJsonBlankShortcut }

/-- Store read succeeds, save succeeds, but the unregister-all step
of the refresh fails. -/
def envRefreshFails : Env :=
  { baseEnv with
      fs := fsWith commandsJsonEcho
      unregisterAllOutcome := .error "shortcut backend down" }

/-- The commands store exists but is an empty (zero-byte) file. -/
def envEmptyStoreFile : Env := { baseEnv with fs := fsWith "" }

/-! ### Theorems -/

/-- C8: `expand_path` on a string beginning with `~` (with HOME set)
replaces exactly the leading character with the home directory, so any
later literal `~` is untouched; a string not beginning with `~` is
returned unchanged. -/
theorem expand_path_tilde :
    (∀ h p, startsWithTilde p = true →
      Store.expand_path (some h) p = h ++ String.mk (p.data.drop 1)) ∧
    (∀ home q, startsWithTilde q = false → Store.expand_path home q = q) := by
  constructor
  · intro h p hp
    cases p with
    | mk cs =>
      cases cs with
      | nil => simp [startsWithTilde] at hp
      | cons c rest =>
        have hc : c = '~' := by simpa [startsWithTilde] using hp
        subst hc
        simp [Store.expand_path, startsWithTilde, stripTilde]
  · intro home q hq
    simp [Store.expand_path, hq]

/-- C8 witness at a concrete path containing a second `~`. -/
theorem expand_path_tilde_witness :
    Store.expand_path (some "/home/u") "~/cfg/file~backup.json" =
      "/home/u/cfg/file~backup.json" ∧
    Store.expand_path (some "/home/u") "/etc/hosts" = "/etc/hosts" := by
  constructor
  · exact (expand_path_tilde.1 "/home/u" "~/cfg/file~backup.json"
      (by decide)).trans (by decide)
  · exact expand_path_tilde.2 (some "/home/u") "/etc/hosts" (by decide)

/-- C9 counterexample: with an existing but empty (zero-byte) commands
file, `list_commands` returns a JSON parse error, not an empty
sequence. -/
theorem list_commands_empty_file_counterexample :
    list_commands envEmptyStoreFile = .error "EOF while parsing a value" ∧
    envEmptyStoreFile.fs "/data/commands.json" = some "" := by decide

/-- C9 (amended): a missing backing file yields the empty command list
both at the store layer and through `list_commands`; an existing but
empty (zero-byte) file is a JSON parse error instead. -/
theorem get_commands_missing_file :
    (∀ fs path, fs path = none → Store.get_commands fs path = .ok []) ∧
    (∀ env p, get_store_path env = .ok p → env.fs p = none →
      list_commands env = .ok []) ∧
    (∀ fs path, fs path = some "" →
      Store.get_commands fs path = .error "EOF while parsing a value") := by
  refine ⟨?_, ?_, ?_⟩
  · intro fs path h
    simp [Store.get_commands, h]
  · intro env p h1 h2
    simp [list_commands, h1, Store.get_commands, h2]
  · intro fs path h
    simp only [Store.get_commands, h]
    decide

/-- C9 witness: the three cases at concrete inputs. -/
theorem get_commands_missing_file_witness :
    Store.get_commands (fun _ => none) "/data/commands.json" = .ok [] ∧
    list_commands baseEnv = .ok [] ∧
    Store.get_commands (fun _ => some "") "/data/commands.json" =
      .error "EOF while parsing a value" := by
  refine ⟨get_commands_missing_file.1 _ _ rfl,
    get_commands_missing_file.2.1 baseEnv "/data/commands.json"
      (by decide) rfl,
    get_commands_missing_file.2.2 _ _ rfl⟩

/-- C10: an id matching no stored command makes `execute_command`
return the `Command not found` error for every environment — the
safe-mode state is irrelevant because the lookup precedes the
safe-mode check — with no spawn and no registry change. -/
theorem execute_unknown_id :
    ∀ env reg id path commands,
      get_store_path env = .ok path →
      Store.get_commands env.fs path = .ok commands →
      commands.find? (fun c => c.id == id) = none →
      (execute_command env reg id).result = .error "Command not found" ∧
      (execute_command env reg id).registry = reg ∧
      (execute_command env reg id).spawned = [] := by
  intro env reg id path commands h1 h2 h3
  simp [execute_command, h1, h2, h3]

/-- C10 witness: unknown id in an environment whose config has safe
mode on. -/
theorem execute_unknown_id_witness :
    (execute_command envSafe [] "missing").result =
      .error "Command not found" ∧
    (execute_command envSafe [] "missing").registry = [] ∧
    (execute_command envSafe [] "missing").spawned = [] ∧
    Store.get_config envSafe.fs "/data/config.json" = .ok ⟨true, none, none⟩ := by
  have h := execute_unknown_id envSafe [] "missing" "/data/commands.json"
    [cmdEcho] (by decide) (by decide) (by decide)
  exact ⟨h.1, h.2.1, h.2.2, by decide⟩

/-- C1: when the id resolves to a stored command and the configuration
has `safe_mode = true`, `execute_command` fails with the safe-mode
error, spawns nothing, and leaves the Process Registry unchanged. -/
theorem execute_safe_mode_blocks :
    ∀ env reg id path commands c configPath config,
      get_store_path env = .ok path →
      Store.get_commands env.fs path = .ok commands →
      commands.find? (fun cc => cc.id == id) = some c →
      get_config_path env = .ok configPath →
      Store.get_config env.fs configPath = .ok config →
      config.safe_mode = true →
      (execute_command env reg id).result = .error safeModeMsg ∧
      (execute_command env reg id).spawned = [] ∧
      (execute_command env reg id).registry = reg := by
  intro env reg id path commands c configPath config h1 h2 h3 h4 h5 h6
  simp [execute_command, h1, h2, h3, run_command_script, h4, h5, h6]

/-- C1 witness: safe mode on, a resolvable command, nonempty prior
registry. -/
theorem execute_safe_mode_blocks_witness :
    (execute_command envSafe [("z", 9)] "a").result = .error safeModeMsg ∧
    (execute_command envSafe [("z", 9)] "a").spawned = [] ∧
    (execute_command envSafe [("z", 9)] "a").registry = [("z", 9)] := by
  have h := execute_safe_mode_blocks envSafe [("z", 9)] "a"
    "/data/commands.json" [cmdEcho] cmdEcho "/data/config.json"
    ⟨true, none, none⟩ (by decide) (by decide) (by decide) (by decide)
    (by decide) rfl
  exact ⟨h.1, h.2.1, h.2.2⟩

/-- C4: once the subprocess is spawned and the wait succeeds,
`execute_command` returns captured stdout concatenated with stderr for
every exit status; a wait failure or a spawn failure is the only error
of that phase. -/
theorem execute_combined_output :
    ∀ env reg id path commands c configPath config,
      get_store_path env = .ok path →
      Store.get_commands env.fs path = .ok commands →
      commands.find? (fun cc => cc.id == id) = some c →
      get_config_path env = .ok configPath →
      Store.get_config env.fs configPath = .ok config →
      config.safe_mode = false →
      (∀ pid out, env.spawnOutcome = .ok pid → env.waitOutcome = .ok out →
        (execute_command env reg id).result = .ok (out.stdout ++ out.stderr) ∧
        (execute_command env reg id).spawned = [pid]) ∧
      (∀ pid e, env.spawnOutcome = .ok pid → env.waitOutcome = .error e →
        (execute_command env reg id).result =
          .error ("Failed to wait for command: " ++ e)) ∧
      (∀ e, env.spawnOutcome = .error e →
        (execute_command env reg id).result =
          .error ("Failed to spawn command: " ++ e) ∧
        (execute_command env reg id).spawned = []) := by
  intro env reg id path commands c configPath config h1 h2 h3 h4 h5 h6
  refine ⟨?_, ?_, ?_⟩
  · intro pid out hs hw
    simp [execute_command, h1, h2, h3, run_command_script, h4, h5, h6, hs, hw]
  · intro pid e hs hw
    simp [execute_command, h1, h2, h3, run_command_script, h4, h5, h6, hs, hw]
  · intro e hs
    simp [execute_command, h1, h2, h3, run_command_script, h4, h5, h6, hs]

/-- C4 witness: the subprocess exits with status 2 and the combined
output is still returned as success. -/
theorem execute_combined_output_witness :
    (execute_command envRun [] "a").result = .ok "partial outboom" ∧
    (execute_command envRun [] "a").spawned = [101] ∧
    envRun.waitOutcome = .ok ⟨2, "partial out", "boom"⟩ := by
  have h := (execute_combined_output envRun [] "a" "/data/commands.json"
    [cmdEcho] cmdEcho "/data/config.json" ⟨false, none, none⟩ (by decide)
    (by decide) (by decide) (by decide) (by decide) rfl).1 101
    ⟨2, "partial out", "boom"⟩ rfl rfl
  exact ⟨h.1.trans (by decide), h.2, rfl⟩

/-- C5: a stored command with a declared, non-blank kill script makes
`kill_command` run that script and return success whatever its exit
status, never reading the Process Registry and leaving it unchanged. -/
theorem kill_script_declared :
    ∀ env reg id path commands c ks out,
      get_store_path env = .ok path →
      Store.get_commands env.fs path = .ok commands →
      commands.find? (fun cc => cc.id == id) = some c →
      c.kill_script = some ks →
      trimIsEmpty ks = false →
      env.killScriptOutcome = .ok out →
      (kill_command env reg id).result = .ok () ∧
      (kill_command env reg id).consultedRegistry = false ∧
      (kill_command env reg id).ranKillScripts = [ks] ∧
      (kill_command env reg id).registry = reg := by
  intro env reg id path commands c ks out h1 h2 h3 h4 h5 h6
  have hks : killScriptOf commands id = some ks := by
    simp [killScriptOf, h3, h4, h5]
  simp [kill_command, h1, h2, hks, h6]

/-- C5 witness: the kill script exits with status 3; the call still
succeeds and the (nonempty) registry is neither read nor changed. -/
theorem kill_script_declared_witness :
    (kill_command envKillScript [("c", 55)] "c").result = .ok () ∧
    (kill_command envKillScript [("c", 55)] "c").consultedRegistry = false ∧
    (kill_command envKillScript [("c", 55)] "c").ranKillScripts = ["true"] ∧
    (kill_command envKillScript [("c", 55)] "c").registry = [("c", 55)] := by
  exact kill_script_declared envKillScript [("c", 55)] "c"
    "/data/commands.json" [cmdKillable] cmdKillable "true"
    ⟨3, "", "script failed"⟩ (by decide) (by decide) (by decide) rfl
    (by decide) rfl

/-- Removing the key just inserted removes exactly that key. -/
theorem regRemove_insert (r : Registry) (k : String) (v : Nat) :
    regRemove (regInsert r k v) k = regRemove r k := by
  simp [regInsert, regRemove, List.filter_filter]

/-- C6: `kill_command` never removes a Process Registry entry on any
path, while the completion path of the executor is what removes the entry
for the executed id once the spawn has happened. -/
theorem kill_never_removes :
    (∀ env reg id, (kill_command env reg id).registry = reg) ∧
    (∀ env reg id script configPath config pid,
      get_config_path env = .ok configPath →
      Store.get_config env.fs configPath = .ok config →
      config.safe_mode = false →
      env.spawnOutcome = .ok pid →
      (run_command_script env id script reg).registry = regRemove reg id) := by
  constructor
  · intro env reg id
    unfold kill_command
    repeat' split
    all_goals rfl
  · intro env reg id script configPath config pid h1 h2 h3 h4
    cases hw : env.waitOutcome <;>
      simp [run_command_script, h1, h2, h3, h4, hw, regRemove_insert]

/-- C6 witness: a fallback kill leaves the entry in place; a run of
the executor removes exactly the entry of the executed id. -/
theorem kill_never_removes_witness :
    (kill_command envKillOk [("b", 42)] "b").registry = [("b", 42)] ∧
    (run_command_script baseEnv "a" "echo hi" [("a", 7), ("b", 8)]).registry =
      [("b", 8)] := by
  refine ⟨kill_never_removes.1 envKillOk [("b", 42)] "b", ?_⟩
  exact (kill_never_removes.2 baseEnv [("a", 7), ("b", 8)] "a" "echo hi"
    "/data/config.json" ⟨false, none, none⟩ 101 (by decide) (by decide)
    rfl rfl).trans (by decide)

/-- C3 counterexample: the fallback `kill -9` invocation itself runs
fine but reports failure because the target process is already gone;
`kill_command` surfaces that as an error, so more than a failure of
the OS termination call is surfaced. -/
theorem kill_fallback_gone_counterexample :
    (kill_command envKillGone [("b", 42)] "b").result =
      .error "Kill command failed: kill: No such process" ∧
    envKillGone.killCmdOutcome = .ok ⟨1, "", "kill: No such process"⟩ := by
  decide

/-- C3 (amended): with a tracked pid and no usable kill script,
`kill_command` invokes `kill -9` on that pid; an error is surfaced
both when the OS call to run the termination command fails and when
the termination command exits non-zero (which includes a target
process that is already gone); success needs exit status zero. -/
theorem kill_fallback_termination :
    ∀ env reg id pid path commands,
      get_store_path env = .ok path →
      Store.get_commands env.fs path = .ok commands →
      killScriptOf commands id = none →
      regFind reg id = some pid →
      (∀ e, env.killCmdOutcome = .error e →
        (kill_command env reg id).result =
          .error ("Failed to execute kill command: " ++ e) ∧
        (kill_command env reg id).signaledPids = []) ∧
      (∀ out, env.killCmdOutcome = .ok out →
        (kill_command env reg id).signaledPids = [pid] ∧
        ((out.status == 0) = true → (kill_command env reg id).result = .ok ()) ∧
        ((out.status == 0) = false →
          (kill_command env reg id).result =
            .error ("Kill command failed: " ++ out.stderr))) := by
  intro env reg id pid path commands h1 h2 h3 h4
  constructor
  · intro e he
    simp [kill_command, h1, h2, h3, h4, he]
  · intro out ho
    refine ⟨?_, ?_, ?_⟩
    · cases hs : out.status == 0 <;>
        simp [kill_command, h1, h2, h3, h4, ho, hs]
    · intro hs
      simp [kill_command, h1, h2, h3, h4, ho, hs]
    · intro hs
      simp [kill_command, h1, h2, h3, h4, ho, hs]

/-- C3 witness: a successful fallback kill of a tracked pid. -/
theorem kill_fallback_termination_witness :
    (kill_command envKillOk [("b", 42)] "b").result = .ok () ∧
    (kill_command envKillOk [("b", 42)] "b").signaledPids = [42] := by
  have h := (kill_fallback_termination envKillOk [("b", 42)] "b" 42
    "/data/commands.json" [] (by decide) (by decide) rfl
    (by decide)).2 ⟨0, "", ""⟩ rfl
  exact ⟨h.2.1 rfl, h.1⟩

/-- The registration fold only appends to its accumulator. -/
theorem foldl_shortcutStep_eq (g : String → Bool) :
    ∀ (cs : List Command) (acc : List String),
      cs.foldl (shortcutStep g) acc = acc ++ cs.foldl (shortcutStep g) [] := by
  intro cs
  induction cs with
  | nil => intro acc; simp
  | cons c cs ih =>
    intro acc
    rw [List.foldl_cons, List.foldl_cons, ih (shortcutStep g acc c),
      ih (shortcutStep g [] c)]
    cases hsc : c.shortcut with
    | none => simp [shortcutStep, hsc]
    | some s =>
      simp only [shortcutStep, hsc]
      split <;> simp

/-- Membership in one registration step from an empty accumulator. -/
theorem mem_shortcutStep_nil (g : String → Bool) (c : Command) (s : String) :
    s ∈ shortcutStep g [] c ↔
      c.shortcut = some s ∧ trimIsEmpty s = false ∧ g s = true := by
  cases hsc : c.shortcut with
  | none => simp [shortcutStep, hsc]
  | some s' =>
    cases h1 : trimIsEmpty s' <;> cases h2 : g s' <;>
      simp [shortcutStep, hsc, h1, h2] <;> aesop

/-- Membership in the full registration fold. -/
theorem mem_registered (g : String → Bool) :
    ∀ (cs : List Command) (s : String),
      s ∈ cs.foldl (shortcutStep g) [] ↔
        ∃ c, c ∈ cs ∧ c.shortcut = some s ∧
          trimIsEmpty s = false ∧ g s = true := by
  intro cs
  induction cs with
  | nil => intro s; simp
  | cons c cs ih =>
    intro s
    rw [List.foldl_cons, foldl_shortcutStep_eq]
    simp only [List.mem_append, ih, mem_shortcutStep_nil, List.mem_cons,
      or_and_right, exists_or, exists_eq_left]

/-- C2 counterexample: a stored command whose shortcut is the
non-empty string `" "`, with a registrar that accepts everything;
a successful refresh registers nothing, so the registration set does
not equal the set of non-empty shortcut values the registrar would
accept. -/
theorem refresh_blank_shortcut_counterexample :
    (refresh_shortcuts envBlankShortcut []).1 = .ok () ∧
    (refresh_shortcuts envBlankShortcut []).2 = [] ∧
    Store.get_commands envBlankShortcut.fs "/data/commands.json" =
      .ok [cmdBlankShortcut] ∧
    cmdBlankShortcut.shortcut = some " " ∧
    " " ≠ "" ∧
    envBlankShortcut.registerOk " " = true := by
  decide

/-- C2 (amended): after a successful refresh the registration set
holds exactly the shortcut values of stored commands that are
non-blank (non-empty after trimming whitespace) and accepted by the
registrar; per-entry registration failures are skipped without
aborting the rest. -/
theorem refresh_registered_set :
    ∀ env os path commands,
      env.unregisterAllOutcome = .ok () →
      get_store_path env = .ok path →
      Store.get_commands env.fs path = .ok commands →
      (refresh_shortcuts env os).1 = .ok () ∧
      (∀ s, s ∈ (refresh_shortcuts env os).2 ↔
        ∃ c, c ∈ commands ∧ c.shortcut = some s ∧
          trimIsEmpty s = false ∧ env.registerOk s = true) := by
  intro env os path commands h1 h2 h3
  have hr : refresh_shortcuts env os =
      (.ok (), commands.foldl (shortcutStep env.registerOk) []) := by
    simp [refresh_shortcuts, h1, h2, h3]
  rw [hr]
  exact ⟨rfl, fun s => mem_registered env.registerOk commands s⟩

/-- C2 witness: two stored shortcuts, the registrar accepts only
`Ctrl+1`; the refresh succeeds, registers `Ctrl+1`, and drops
`Ctrl+2` without aborting. -/
theorem refresh_registered_set_witness :
    (refresh_shortcuts envShortcuts []).1 = .ok () ∧
    "Ctrl+1" ∈ (refresh_shortcuts envShortcuts []).2 ∧
    "Ctrl+2" ∉ (refresh_shortcuts envShortcuts []).2 := by
  have h := refresh_registered_set envShortcuts [] "/data/commands.json"
    [cmdCtrl1, cmdCtrl2] rfl (by decide) (by decide)
  refine ⟨h.1, ?_, ?_⟩
  · exact (h.2 "Ctrl+1").mpr
      ⟨cmdCtrl1, by decide, by decide, by decide, by decide⟩
  · intro hm
    rcases (h.2 "Ctrl+2").mp hm with ⟨c, _hc, _hsc, _ht, hg⟩
    exact absurd hg (by decide)

/-- C7: add, update and delete commit the store write first, refresh
shortcuts as their final step, and return the refresh result as the
overall result (so a refresh failure is the error of the operation even
though the save already happened). -/
theorem mutations_save_then_refresh :
    ∀ env os cmd id path commands,
      get_store_path env = .ok path →
      Store.get_commands env.fs path = .ok commands →
      env.saveOutcome = .ok () →
      ((add_command env os cmd).events =
          [.saved (commands ++ [cmd]), .refreshAttempted] ∧
        (add_command env os cmd).result =
          (refresh_shortcuts (envAfterSave env path (commands ++ [cmd])) os).1) ∧
      (∀ index, commands.findIdx? (fun c => c.id == cmd.id) = some index →
        (update_command env os cmd).events =
          [.saved (commands.set index cmd), .refreshAttempted] ∧
        (update_command env os cmd).result =
          (refresh_shortcuts (envAfterSave env path (commands.set index cmd)) os).1) ∧
      ((delete_command env os id).events =
          [.saved (commands.filter (fun c => !(c.id == id))), .refreshAttempted] ∧
        (delete_command env os id).result =
          (refresh_shortcuts
            (envAfterSave env path (commands.filter (fun c => !(c.id == id)))) os).1) := by
  intro env os cmd id path commands h1 h2 h3
  refine ⟨?_, ?_, ?_⟩
  · simp [add_command, h1, h2, h3]
  · intro index hidx
    simp [update_command, h1, h2, h3, hidx]
  · simp [delete_command, h1, h2, h3]

/-- C7 witness: the store holds one command, the save succeeds, and
the unregister-all step of the refresh fails; each mutation saves first and
returns the refresh failure. -/
theorem mutations_save_then_refresh_witness :
    (add_command envRefreshFails [] cmdCtrl1).result =
      .error "shortcut backend down" ∧
    (add_command envRefreshFails [] cmdCtrl1).events =
      [.saved [cmdEcho, cmdCtrl1], .refreshAttempted] ∧
    (update_command envRefreshFails [] cmdEcho2).result =
      .error "shortcut backend down" ∧
    (update_command envRefreshFails [] cmdEcho2).events =
      [.saved [cmdEcho2], .refreshAttempted] ∧
    (delete_command envRefreshFails [] "a").result =
      .error "shortcut backend down" ∧
    (delete_command envRefreshFails [] "a").events =
      [.saved [], .refreshAttempted] := by
  have h := mutations_save_then_refresh envRefreshFails [] cmdCtrl1 "a"
    "/data/commands.json" [cmdEcho] (by decide) (by decide) rfl
  have h2 := mutations_save_then_refresh envRefreshFails [] cmdEcho2 "a"
    "/data/commands.json" [cmdEcho] (by decide) (by decide) rfl
  refine ⟨h.1.2.trans (by decide), h.1.1.trans (by decide),
    ((h2.2.1 0 (by decide)).2).trans (by decide),
    ((h2.2.1 0 (by decide)).1).trans (by decide),
    h.2.2.2.trans (by decide), h.2.2.1.trans (by decide)⟩

end Climgr
